import Mathlib

/-!
# Board bring-up of the NXP FMUK66-v3 flight controller

A shallow embedding of `src/boards/nxp/fmuk66-v3/src/init.c`.

* Every call that `init.c` makes into code outside the file (drivers, NuttX,
  board macros) is recorded as an `Action`; a C function of `init.c` becomes a
  Lean function that yields the list of actions in program order, together
  with the value it returns.
* Results of external calls that the code inspects (`board_dma_alloc_init`,
  `fmuk66_sdhc_initialize`, `fmuk66_spi_bus_initialize`) are inputs (`Env`).
* Preprocessor switches whose definitions live in headers outside the file are
  inputs as well (`Config`).
* The UART registers touched by `board_rc_input` are modelled as byte cells of
  an address-indexed memory.
-/

namespace Fmuk66

/-! ## Constants and data model -/

/-- NuttX success code: `#define OK 0`. -/
def OK : Int := 0

/-- The three colour channels `LED_RED`, `LED_GREEN`, `LED_BLUE` that `init.c` names. -/
inductive Led
  | LED_RED
  | LED_GREEN
  | LED_BLUE
  deriving DecidableEq, Repr

/-- The `struct timespec` that `board_app_initialize` fills in for the serial DMA poll. -/
structure Timespec where
  tv_sec : Nat
  tv_nsec : Nat
  deriving DecidableEq, Repr

/-- One `(pin, configuration)` word of a GPIO table; `output_low` tells whether the
word configures the pin as an output driven low. -/
structure GpioEntry where
  pin : Nat
  output_low : Bool
  deriving DecidableEq, Repr

/-- The calls that the functions of `init.c` make into code outside the file,
each constructor named after the callee, with the arguments passed.
`hrt_call_every` carries the two `timespec` values that the code converts with
`ts_to_abstime` for the delay and the interval; `warnx` carries its format and its
one argument. -/
inductive Action
  | VDD_3V3_SD_CARD_EN (on_true : Bool)
  | VDD_3V3_SENSORS_EN (on_true : Bool)
  | fmuk66_spidev_initialize
  | VDD_ETH_EN (on_true : Bool)
  | up_cxxinitialize
  | param_init
  | hrt_init
  | board_dma_alloc_init
  | message (text : String)
  | cpuload_initialize_once
  | hrt_call_every (delay interval : Timespec)
  | drv_led_start
  | led_off (led : Led)
  | fmuk66_sdhc_initialize
  | board_autoled_on (led : Led)
  | fmuk66_automount_initialize
  | fmuk66_spi_bus_initialize
  | board_gpio_init (gpio : List GpioEntry)
  | up_mdelay (ms : Nat)
  | usleep (usec : Int)
  | warnx (fmt : String) (arg : Int)
  deriving DecidableEq, Repr

/-- Preprocessor switches tested by `board_app_initialize`; they are defined in
configuration headers outside `init.c`, so they are inputs of the model.
(`CONFIG_HAVE_CXX` and `CONFIG_HAVE_CXXINITIALIZE` are not listed: the file
refuses to compile without them.) -/
structure Config where
  CONFIG_SCHED_INSTRUMENTATION : Bool
  SERIAL_HAVE_DMA : Bool
  HAVE_AUTOMOUNTER : Bool
  CONFIG_SPI : Bool
  deriving DecidableEq, Repr

/-- Values returned by the three external calls whose result the code inspects. -/
structure Env where
  board_dma_alloc_init : Int
  fmuk66_sdhc_initialize : Int
  fmuk66_spi_bus_initialize : Int
  deriving DecidableEq, Repr

/-- Which `return` statement of `board_app_initialize` was taken: the one after a
failed SD-card stage (line 340), the one after a failed SPI bus stage (line 356),
or the final `return OK` (line 361). -/
inductive Exit
  | sd_fault
  | spi_fault
  | ready
  deriving DecidableEq, Repr

/-- What a run of `board_app_initialize` did: the calls made, in order, the value
returned and the `return` statement reached. -/
structure Outcome where
  trace : List Action
  ret : Int
  exit : Exit
  deriving DecidableEq, Repr

/-! ## `board_app_initialize` -/

/-- The poll period set up in `board_app_initialize`: `tv_sec = 0`, `tv_nsec = 1000000`. -/
def serial_dma_ts : Timespec := ⟨0, 1000000⟩

/-- The function `board_app_initialize` (lines 269-362): the calls it makes in program
order, the value it returns and the `return` taken. The argument `arg` is unused by
the C code. -/
def board_app_initialize (cfg : Config) (env : Env) (_arg : Nat) : Outcome :=
  let t : List Action :=
    [Action.VDD_3V3_SD_CARD_EN true,
     Action.VDD_3V3_SENSORS_EN true,
     Action.fmuk66_spidev_initialize,
     Action.VDD_ETH_EN true,
     Action.up_cxxinitialize,
     Action.param_init,
     Action.hrt_init,
     Action.board_dma_alloc_init]
  let t := if env.board_dma_alloc_init < 0 then t ++ [Action.message "DMA alloc FAILED"] else t
  let t := if cfg.CONFIG_SCHED_INSTRUMENTATION then t ++ [Action.cpuload_initialize_once] else t
  let t := if cfg.SERIAL_HAVE_DMA then
      t ++ [Action.hrt_call_every serial_dma_ts serial_dma_ts] else t
  let t := t ++ [Action.drv_led_start,
                 Action.led_off Led.LED_RED,
                 Action.led_off Led.LED_GREEN,
                 Action.led_off Led.LED_BLUE]
  let t := t ++ [Action.fmuk66_sdhc_initialize]
  let ret := env.fmuk66_sdhc_initialize
  if ret ≠ OK then
    ⟨t ++ [Action.board_autoled_on Led.LED_RED], ret, Exit.sd_fault⟩
  else
    let t := if cfg.HAVE_AUTOMOUNTER then t ++ [Action.fmuk66_automount_initialize] else t
    if cfg.CONFIG_SPI then
      let t := t ++ [Action.fmuk66_spi_bus_initialize]
      let ret := env.fmuk66_spi_bus_initialize
      if ret ≠ OK then
        ⟨t ++ [Action.board_autoled_on Led.LED_RED], ret, Exit.spi_fault⟩
      else
        ⟨t, OK, Exit.ready⟩
    else
      ⟨t, OK, Exit.ready⟩

/-! ## Indicator state -/

/-- The tri-colour indicator: each channel independently on or off. -/
structure IndicatorState where
  red : Bool
  green : Bool
  blue : Bool
  deriving DecidableEq, Repr

/-- Modelled from the spec: the Status Indicator operation `set(color, on)`; the LED
driver behind `led_off` and `board_autoled_on` is not part of `init.c`. -/
def IndicatorState.set (s : IndicatorState) (led : Led) (lit : Bool) : IndicatorState :=
  match led with
  | Led.LED_RED => { s with red := lit }
  | Led.LED_GREEN => { s with green := lit }
  | Led.LED_BLUE => { s with blue := lit }

/-- Modelled from the spec: the effect of one call on the indicator. `led_off`
switches its channel off, `board_autoled_on` switches its channel on,
`drv_led_start` leaves the indicator in a state `started` chosen by the driver,
and no other call touches the indicator. -/
def ledEffect (started : IndicatorState) (s : IndicatorState) : Action → IndicatorState
  | Action.drv_led_start => started
  | Action.led_off led => s.set led false
  | Action.board_autoled_on led => s.set led true
  | _ => s

/-- Indicator state after a sequence of calls, starting from `s0`. -/
def indicatorAfter (started s0 : IndicatorState) (trace : List Action) : IndicatorState :=
  trace.foldl (ledEffect started) s0

/-- The stages of the Bring-Up Orchestrator, in the order the specification lists them. -/
inductive Stage
  | RailsEnabling
  | LanguageRuntimePrep
  | ParamStoreInit
  | TimebaseInit
  | DmaAllocInit
  | CpuLoadInstrumentInit
  | SerialPollRegister
  | LedInit
  | SdInit
  | AutomountInit
  | SpiInit
  | Ready
  deriving DecidableEq, Repr

/-- The fixed linear order of the stages. -/
def stageOrder : List Stage :=
  [Stage.RailsEnabling, Stage.LanguageRuntimePrep, Stage.ParamStoreInit, Stage.TimebaseInit,
   Stage.DmaAllocInit, Stage.CpuLoadInstrumentInit, Stage.SerialPollRegister, Stage.LedInit,
   Stage.SdInit, Stage.AutomountInit, Stage.SpiInit, Stage.Ready]

/-- The stage a call of `board_app_initialize` belongs to. The chip-select set-up
`fmuk66_spidev_initialize`, which the code places between the rail switches, is
part of rail enabling; the diagnostic after a failed DMA allocator belongs to the
DMA stage; the three `led_off` calls belong to LED init. The fault indicator
`board_autoled_on` and the calls of the other functions are no stage action. -/
def stageOf : Action → Option Stage
  | Action.VDD_3V3_SD_CARD_EN _ => some Stage.RailsEnabling
  | Action.VDD_3V3_SENSORS_EN _ => some Stage.RailsEnabling
  | Action.fmuk66_spidev_initialize => some Stage.RailsEnabling
  | Action.VDD_ETH_EN _ => some Stage.RailsEnabling
  | Action.up_cxxinitialize => some Stage.LanguageRuntimePrep
  | Action.param_init => some Stage.ParamStoreInit
  | Action.hrt_init => some Stage.TimebaseInit
  | Action.board_dma_alloc_init => some Stage.DmaAllocInit
  | Action.message _ => some Stage.DmaAllocInit
  | Action.cpuload_initialize_once => some Stage.CpuLoadInstrumentInit
  | Action.hrt_call_every _ _ => some Stage.SerialPollRegister
  | Action.drv_led_start => some Stage.LedInit
  | Action.led_off _ => some Stage.LedInit
  | Action.fmuk66_sdhc_initialize => some Stage.SdInit
  | Action.fmuk66_automount_initialize => some Stage.AutomountInit
  | Action.fmuk66_spi_bus_initialize => some Stage.SpiInit
  | _ => none

/-- Collapse each run of equal neighbours to one element. -/
def collapseRuns : List Stage → List Stage
  | [] => []
  | [s] => [s]
  | s :: t :: rest =>
    if s = t then collapseRuns (t :: rest) else s :: collapseRuns (t :: rest)

/-- The stages a run went through, in order of execution: the stages of its calls,
one entry per uninterrupted run of calls of the same stage, followed by `Ready`
when the final `return OK` was reached. -/
def stagesRun (out : Outcome) : List Stage :=
  collapseRuns (out.trace.filterMap stageOf) ++
    (if out.exit = Exit.ready then [Stage.Ready] else [])

/-- Whether a stage is compiled into the build `cfg`. -/
def Config.hasStage (cfg : Config) : Stage → Bool
  | Stage.CpuLoadInstrumentInit => cfg.CONFIG_SCHED_INSTRUMENTATION
  | Stage.SerialPollRegister => cfg.SERIAL_HAVE_DMA
  | Stage.AutomountInit => cfg.HAVE_AUTOMOUNTER
  | Stage.SpiInit => cfg.CONFIG_SPI
  | _ => true

/-- Checks that in `l` an element satisfying `a` occurs before the first element
satisfying `b` (or that no element satisfies `b`). -/
def precedesB (a b : Action → Bool) : List Action → Bool
  | [] => true
  | x :: xs => if b x then false else if a x then true else precedesB a b xs

/-- Every occurrence in `l` of a call satisfying `b` comes after a call satisfying `a`. -/
def Precedes (a b : Action → Bool) (l : List Action) : Prop :=
  ∀ (j : Nat) (y : Action), l[j]? = some y → b y = true →
    ∃ (i : Nat) (x : Action), i < j ∧ l[i]? = some x ∧ a x = true

/-- Recogniser of `hrt_init`. -/
def isTimebaseInit : Action → Bool
  | Action.hrt_init => true
  | _ => false

/-- Recogniser of `hrt_call_every`, whatever its arguments. -/
def isPollRegistration : Action → Bool
  | Action.hrt_call_every _ _ => true
  | _ => false

/-- Recogniser of the call that switches the SD-card rail on. -/
def isSdRailOn : Action → Bool
  | Action.VDD_3V3_SD_CARD_EN true => true
  | _ => false

/-- Recogniser of the SD controller probe. -/
def isSdProbe : Action → Bool
  | Action.fmuk66_sdhc_initialize => true
  | _ => false

/-- Recogniser of the calls that switch a power rail. -/
def isRailSwitch : Action → Bool
  | Action.VDD_3V3_SD_CARD_EN _ => true
  | Action.VDD_3V3_SENSORS_EN _ => true
  | Action.VDD_ETH_EN _ => true
  | _ => false

/-- Recogniser of the calls that act on the indicator. -/
def isLedAction : Action → Bool
  | Action.drv_led_start => true
  | Action.led_off _ => true
  | Action.board_autoled_on _ => true
  | _ => false

/-! ## `board_on_reset`, `board_read_VBUS_state`, `board_peripheral_reset` -/

/-- The function `board_on_reset` (lines 133-143). `PX4_GPIO_PWM_INIT_LIST` is a board macro
defined outside `init.c`, taken as an input. -/
def board_on_reset (PX4_GPIO_PWM_INIT_LIST : List GpioEntry) (status : Int) : List Action :=
  let t := [Action.board_gpio_init PX4_GPIO_PWM_INIT_LIST]
  if status ≥ 0 then t ++ [Action.up_mdelay 6] else t

/-- Modelled from the spec: `board_gpio_init`, which is not part of `init.c`, applies
each entry of the table in order, later entries overriding earlier ones for the
same pin. The state maps a pin to whether it is configured as an output held low. -/
def gpioEffect (pins : Nat → Bool) : Action → Nat → Bool
  | Action.board_gpio_init gpio =>
    gpio.foldl (fun st e => fun p => if p = e.pin then e.output_low else st p) pins
  | _ => pins

/-- Pin state after a sequence of calls. -/
def pinsAfter (pins : Nat → Bool) (trace : List Action) : Nat → Bool :=
  trace.foldl gpioEffect pins

/-- Total busy-wait requested through `up_mdelay` by a sequence of calls, in milliseconds. -/
def delayOf : List Action → Nat
  | [] => 0
  | Action.up_mdelay ms :: rest => ms + delayOf rest
  | _ :: rest => delayOf rest

/-- The function `board_read_VBUS_state` (lines 157-160). `BOARD_ADC_USB_CONNECTED` is a board
macro defined outside `init.c`; its value is the input, read with C truthiness. -/
def board_read_VBUS_state (BOARD_ADC_USB_CONNECTED : Int) : Int :=
  if BOARD_ADC_USB_CONNECTED ≠ 0 then 0 else 1

/-- The function `board_peripheral_reset` (lines 203-214): the body holds two statements, the
`usleep` and the `warnx`. The `int` product is converted to the unsigned 32-bit
`useconds_t` of `usleep`. -/
def board_peripheral_reset (ms : Int) : List Action :=
  [Action.usleep ((ms * 1000) % 2 ^ 32), Action.warnx "reset done, %d ms" ms]

/-! ## `board_rc_input` -/

/-- Register offsets and bit masks of the Kinetis UART used by `board_rc_input`;
they are defined in `kinetis_uart.h`, outside `init.c`, and are inputs of the model. -/
structure UartRegs where
  KINETIS_UART_S2_OFFSET : Nat
  KINETIS_UART_C3_OFFSET : Nat
  UART_S2_RXINV : Nat
  UART_C3_TXINV : Nat
  deriving DecidableEq, Repr

/-- The values the Kinetis K66 UART has: S2 at offset 5, C3 at offset 6, each
inversion flag at bit 4. -/
def k66Uart : UartRegs := ⟨0x0005, 0x0006, 2 ^ 4, 2 ^ 4⟩

/-- Hardware state seen by `board_rc_input`: the byte stored at each address and
the interrupt state saved and restored by the critical section. -/
structure Hw where
  mem : Nat → Nat
  irqstate : Nat

/-- Modelled from the spec: `read_register(addr) -> byte`. -/
def getreg8 (hw : Hw) (addr : Nat) : Nat :=
  hw.mem addr % 256

/-- Modelled from the spec: `write_register(addr, byte)`. -/
def putreg8 (val addr : Nat) (hw : Hw) : Hw :=
  { hw with mem := fun a => if a = addr then val % 256 else hw.mem a }

/-- Modelled from the spec: entering the critical section masks interrupts
(state `0`) and hands back the prior interrupt state. -/
def px4_enter_critical_section (hw : Hw) : Nat × Hw :=
  (hw.irqstate, { hw with irqstate := 0 })

/-- Modelled from the spec: leaving the critical section restores the prior
interrupt state. -/
def leave_critical_section (flags : Nat) (hw : Hw) : Hw :=
  { hw with irqstate := flags }

/-- Address `offset + uxart_base` in `uint32_t` arithmetic. -/
def regAddr (offset uxart_base : Nat) : Nat :=
  (offset + uxart_base) % 2 ^ 32

/-- The C statement `x |= mask` on a `uint8_t` lvalue. -/
def setBits8 (x mask : Nat) : Nat :=
  (x ||| mask) % 256

/-- The C statement `x &= ~mask` on a `uint8_t` lvalue; the complement is taken at
the 32-bit width of `int`. -/
def clearBits8 (x mask : Nat) : Nat :=
  (x &&& ((2 ^ 32 - 1) ^^^ (mask % 2 ^ 32))) % 256

/-- The function `board_rc_input` (lines 172-195): read S2 and C3 inside the critical
section, set or clear the inversion flags, write S2 and then C3 back. -/
def board_rc_input (K : UartRegs) (invert_on : Bool) (uxart_base : Nat) (hw : Hw) : Hw :=
  let (irqstate, hw) := px4_enter_critical_section hw
  let s2 := getreg8 hw (regAddr K.KINETIS_UART_S2_OFFSET uxart_base)
  let c3 := getreg8 hw (regAddr K.KINETIS_UART_C3_OFFSET uxart_base)
  let s2 := if invert_on then setBits8 s2 K.UART_S2_RXINV else clearBits8 s2 K.UART_S2_RXINV
  let c3 := if invert_on then setBits8 c3 K.UART_C3_TXINV else clearBits8 c3 K.UART_C3_TXINV
  let hw := putreg8 s2 (regAddr K.KINETIS_UART_S2_OFFSET uxart_base) hw
  let hw := putreg8 c3 (regAddr K.KINETIS_UART_C3_OFFSET uxart_base) hw
  leave_critical_section irqstate hw

/-! ## Concrete inputs used in the examples -/

/-- A build with every optional stage compiled in. -/
def cfgAll : Config := ⟨true, true, true, true⟩

/-- A build with no optional stage compiled in. -/
def cfgNone : Config := ⟨false, false, false, false⟩

/-- A build without `CONFIG_SCHED_INSTRUMENTATION`, every other switch defined. -/
def cfgNoCpuLoad : Config := ⟨false, true, true, true⟩

/-- All external stages succeed. -/
def envOk : Env := ⟨0, 0, 0⟩

/-- The SD-card stage fails with `-ENODEV` (`-19`). -/
def envSdFail : Env := ⟨0, -19, 0⟩

/-- The SPI bus stage fails with `-EIO` (`-5`). -/
def envSpiFail : Env := ⟨0, 0, -5⟩

/-- The DMA allocator fails with `-ENOMEM` (`-12`), the other stages succeed. -/
def envDmaFail : Env := ⟨-12, 0, 0⟩

/-- UART0 of the K66 at `0x4006A000`, every register zero except S2, which has
RXINV (bit 4) and bit 0 set. -/
def hwInverted : Hw := ⟨fun a => if a = 0x4006A005 then 0x11 else 0, 1⟩

/-- Every register zero, interrupts enabled. -/
def hwZero : Hw := ⟨fun _ => 0, 1⟩

/-! ## Helper lemmas -/

theorem precedesB_sound (a b : Action → Bool) (l : List Action)
    (h : precedesB a b l = true) : Precedes a b l := by
  unfold Precedes
  induction l with
  | nil => intro j y hj; simp at hj
  | cons x xs ih =>
    intro j y hj hb
    by_cases hbx : b x = true
    · simp [precedesB, hbx] at h
    · cases j with
      | zero =>
        simp at hj
        subst hj
        exact absurd hb hbx
      | succ k =>
        by_cases hax : a x = true
        · exact ⟨0, x, Nat.succ_pos k, by simp, hax⟩
        · simp only [precedesB, hbx, hax] at h
          simp only [List.getElem?_cons_succ] at hj
          obtain ⟨i, z, hik, hz, haz⟩ := ih (by simpa using h) k y hj hb
          exact ⟨i + 1, z, Nat.succ_lt_succ hik, by simpa using hz, haz⟩

/-- The calls of a run, written as one concatenation with the optional parts
as conditionals. -/
theorem trace_eq (cfg : Config) (env : Env) (arg : Nat) :
    ( board_app_initialize cfg env arg).trace =
      [Action.VDD_3V3_SD_CARD_EN true, Action.VDD_3V3_SENSORS_EN true,
        Action.fmuk66_spidev_initialize, Action.VDD_ETH_EN true, Action.up_cxxinitialize,
        Action.param_init, Action.hrt_init] ++
      Action.board_dma_alloc_init ::
      ((if env.board_dma_alloc_init < 0 then [Action.message "DMA alloc FAILED"] else []) ++
      ((if cfg.CONFIG_SCHED_INSTRUMENTATION then [Action.cpuload_initialize_once] else []) ++
       (if cfg.SERIAL_HAVE_DMA then [Action.hrt_call_every serial_dma_ts serial_dma_ts]
        else []) ++
       [Action.drv_led_start, Action.led_off Led.LED_RED, Action.led_off Led.LED_GREEN,
        Action.led_off Led.LED_BLUE, Action.fmuk66_sdhc_initialize] ++
       (if env.fmuk66_sdhc_initialize ≠ OK then [Action.board_autoled_on Led.LED_RED]
        else
          (if cfg.HAVE_AUTOMOUNTER then [Action.fmuk66_automount_initialize] else []) ++
          (if cfg.CONFIG_SPI then
            Action.fmuk66_spi_bus_initialize ::
              (if env.fmuk66_spi_bus_initialize ≠ OK then [Action.board_autoled_on Led.LED_RED]
               else [])
           else [])))) := by
  obtain ⟨f1, f2, f3, f4⟩ := cfg
  obtain ⟨dma, sd, spi⟩ := env
  by_cases hd : dma < 0 <;> by_cases hsd : sd = OK <;> by_cases hspi : spi = OK <;>
    cases f1 <;> cases f2 <;> cases f3 <;> cases f4 <;>
    simp [ board_app_initialize, hd, hsd, hspi]

/-- The value returned by a run. -/
theorem ret_eq (cfg : Config) (env : Env) (arg : Nat) :
    ( board_app_initialize cfg env arg).ret =
      if env.fmuk66_sdhc_initialize ≠ OK then env.fmuk66_sdhc_initialize
      else if cfg.CONFIG_SPI = true ∧ env.fmuk66_spi_bus_initialize ≠ OK then
        env.fmuk66_spi_bus_initialize
      else OK := by
  obtain ⟨f1, f2, f3, f4⟩ := cfg
  obtain ⟨dma, sd, spi⟩ := env
  by_cases hsd : sd = OK <;> by_cases hspi : spi = OK <;> cases f4 <;>
    simp [ board_app_initialize, hsd, hspi]

/-- The `return` statement taken by a run. -/
theorem exit_eq (cfg : Config) (env : Env) (arg : Nat) :
    ( board_app_initialize cfg env arg).exit =
      if env.fmuk66_sdhc_initialize ≠ OK then Exit.sd_fault
      else if cfg.CONFIG_SPI = true ∧ env.fmuk66_spi_bus_initialize ≠ OK then Exit.spi_fault
      else Exit.ready := by
  obtain ⟨f1, f2, f3, f4⟩ := cfg
  obtain ⟨dma, sd, spi⟩ := env
  by_cases hsd : sd = OK <;> by_cases hspi : spi = OK <;> cases f4 <;>
    simp [ board_app_initialize, hsd, hspi]

set_option maxHeartbeats 4000000 in
/-- The stages executed are an initial segment of the order of the build. -/
theorem stagesRun_initial_segment (cfg : Config) (env : Env) (arg : Nat) :
    stagesRun ( board_app_initialize cfg env arg) <+: stageOrder.filter cfg.hasStage := by
  obtain ⟨f1, f2, f3, f4⟩ := cfg
  obtain ⟨dma, sd, spi⟩ := env
  by_cases hd : dma < 0 <;> by_cases hsd : sd = OK <;> by_cases hspi : spi = OK <;>
    cases f1 <;> cases f2 <;> cases f3 <;> cases f4 <;>
    simp [ board_app_initialize, hd, hsd, hspi, stagesRun, stageOf, collapseRuns,
      stageOrder, Config.hasStage]

set_option maxHeartbeats 4000000 in
/-- No stage occurs twice among the stages executed. -/
theorem stagesRun_nodup (cfg : Config) (env : Env) (arg : Nat) :
    (stagesRun ( board_app_initialize cfg env arg)).Nodup := by
  obtain ⟨f1, f2, f3, f4⟩ := cfg
  obtain ⟨dma, sd, spi⟩ := env
  by_cases hd : dma < 0 <;> by_cases hsd : sd = OK <;> by_cases hspi : spi = OK <;>
    cases f1 <;> cases f2 <;> cases f3 <;> cases f4 <;>
    simp [ board_app_initialize, hd, hsd, hspi, stagesRun, stageOf, collapseRuns]

set_option maxHeartbeats 4000000 in
/-- No call occurs twice in a run. -/
theorem trace_nodup (cfg : Config) (env : Env) (arg : Nat) :
    ( board_app_initialize cfg env arg).trace.Nodup := by
  obtain ⟨f1, f2, f3, f4⟩ := cfg
  obtain ⟨dma, sd, spi⟩ := env
  by_cases hd : dma < 0 <;> by_cases hsd : sd = OK <;> by_cases hspi : spi = OK <;>
    cases f1 <;> cases f2 <;> cases f3 <;> cases f4 <;>
    simp [ board_app_initialize, hd, hsd, hspi]

set_option maxHeartbeats 4000000 in
/-- The serial DMA poll is registered at most once. -/
theorem poll_registered_at_most_once (cfg : Config) (env : Env) (arg : Nat) :
    ( board_app_initialize cfg env arg).trace.countP isPollRegistration ≤ 1 := by
  obtain ⟨f1, f2, f3, f4⟩ := cfg
  obtain ⟨dma, sd, spi⟩ := env
  by_cases hd : dma < 0 <;> by_cases hsd : sd = OK <;> by_cases hspi : spi = OK <;>
    cases f1 <;> cases f2 <;> cases f3 <;> cases f4 <;>
    simp [ board_app_initialize, hd, hsd, hspi, List.countP_cons, isPollRegistration]

set_option maxHeartbeats 4000000 in
/-- The checker accepts every run: time base before poll registration. -/
theorem timebase_check (cfg : Config) (env : Env) (arg : Nat) :
    precedesB isTimebaseInit isPollRegistration
      ( board_app_initialize cfg env arg).trace = true := by
  obtain ⟨f1, f2, f3, f4⟩ := cfg
  obtain ⟨dma, sd, spi⟩ := env
  by_cases hd : dma < 0 <;> by_cases hsd : sd = OK <;> by_cases hspi : spi = OK <;>
    cases f1 <;> cases f2 <;> cases f3 <;> cases f4 <;>
    simp [ board_app_initialize, hd, hsd, hspi, precedesB, isPollRegistration, isTimebaseInit]

set_option maxHeartbeats 4000000 in
/-- The checker accepts every run: SD-card rail before SD probe. -/
theorem sd_rail_check (cfg : Config) (env : Env) (arg : Nat) :
    precedesB isSdRailOn isSdProbe ( board_app_initialize cfg env arg).trace = true := by
  obtain ⟨f1, f2, f3, f4⟩ := cfg
  obtain ⟨dma, sd, spi⟩ := env
  by_cases hd : dma < 0 <;> by_cases hsd : sd = OK <;> by_cases hspi : spi = OK <;>
    cases f1 <;> cases f2 <;> cases f3 <;> cases f4 <;>
    simp [ board_app_initialize, hd, hsd, hspi, precedesB, isSdProbe, isSdRailOn]

set_option maxHeartbeats 4000000 in
/-- The SPI bus stage runs exactly in a build with `CONFIG_SPI` after an SD-card stage
that returned `OK`. -/
theorem spi_stage_runs_iff (cfg : Config) (env : Env) (arg : Nat) :
    Action.fmuk66_spi_bus_initialize ∈ ( board_app_initialize cfg env arg).trace ↔
      cfg.CONFIG_SPI = true ∧ env.fmuk66_sdhc_initialize = OK := by
  obtain ⟨f1, f2, f3, f4⟩ := cfg
  obtain ⟨dma, sd, spi⟩ := env
  by_cases hd : dma < 0 <;> by_cases hsd : sd = OK <;> by_cases hspi : spi = OK <;>
    cases f1 <;> cases f2 <;> cases f3 <;> cases f4 <;>
    simp [ board_app_initialize, hd, hsd, hspi]

set_option maxHeartbeats 4000000 in
/-- The first four calls of every run: SD-card rail, sensor rail, SPI chip-select
set-up, ethernet rail. -/
theorem trace_take_four (cfg : Config) (env : Env) (arg : Nat) :
    ( board_app_initialize cfg env arg).trace.take 4 =
      [Action.VDD_3V3_SD_CARD_EN true, Action.VDD_3V3_SENSORS_EN true,
       Action.fmuk66_spidev_initialize, Action.VDD_ETH_EN true] := by
  rw [trace_eq]
  rfl

set_option maxHeartbeats 4000000 in
/-- After its first four calls a run switches no rail and does not configure the SPI
chip selects again. -/
theorem trace_drop_four (cfg : Config) (env : Env) (arg : Nat) :
    ∀ a ∈ ( board_app_initialize cfg env arg).trace.drop 4,
      isRailSwitch a = false ∧ a ≠ Action.fmuk66_spidev_initialize := by
  obtain ⟨f1, f2, f3, f4⟩ := cfg
  obtain ⟨dma, sd, spi⟩ := env
  by_cases hd : dma < 0 <;> by_cases hsd : sd = OK <;> by_cases hspi : spi = OK <;>
    cases f1 <;> cases f2 <;> cases f3 <;> cases f4 <;>
    simp [ board_app_initialize, hd, hsd, hspi, isRailSwitch]

/-! ### Register arithmetic -/

theorem testBit_setBits8 (x mask i : Nat) :
    (setBits8 x mask).testBit i = (decide (i < 8) && (x.testBit i || mask.testBit i)) := by
  unfold setBits8
  rw [show (256 : Nat) = 2 ^ 8 from rfl, Nat.testBit_mod_two_pow, Nat.testBit_or]

theorem testBit_clearBits8 (x mask i : Nat) :
    (clearBits8 x mask).testBit i = (decide (i < 8) && (x.testBit i && !mask.testBit i)) := by
  unfold clearBits8
  rw [show (256 : Nat) = 2 ^ 8 from rfl, Nat.testBit_mod_two_pow, Nat.testBit_and,
    Nat.testBit_xor, Nat.testBit_two_pow_sub_one, Nat.testBit_mod_two_pow]
  by_cases h8 : i < 8
  · have h32 : i < 32 := by omega
    simp [h8, h32]
  · simp [h8]

theorem testBit_getreg8_high (hw : Hw) (addr i : Nat) (hi : ¬ i < 8) :
    (getreg8 hw addr).testBit i = false := by
  unfold getreg8
  rw [show (256 : Nat) = 2 ^ 8 from rfl, Nat.testBit_mod_two_pow]
  simp [hi]

theorem setBits8_lt (x mask : Nat) : setBits8 x mask % 256 = setBits8 x mask := by
  unfold setBits8
  exact Nat.mod_mod _ _

theorem clearBits8_lt (x mask : Nat) : clearBits8 x mask % 256 = clearBits8 x mask := by
  unfold clearBits8
  exact Nat.mod_mod _ _

/-- Reading S2 after `board_rc_input`, when S2 and C3 are distinct addresses. -/
theorem getreg8_s2_after (K : UartRegs) (invert_on : Bool) (base : Nat) (hw : Hw)
    (hne : regAddr K.KINETIS_UART_S2_OFFSET base ≠ regAddr K.KINETIS_UART_C3_OFFSET base) :
    getreg8 ( board_rc_input K invert_on base hw) (regAddr K.KINETIS_UART_S2_OFFSET base) =
      if invert_on then setBits8 (getreg8 hw (regAddr K.KINETIS_UART_S2_OFFSET base))
        K.UART_S2_RXINV
      else clearBits8 (getreg8 hw (regAddr K.KINETIS_UART_S2_OFFSET base)) K.UART_S2_RXINV := by
  cases invert_on <;>
    simp [board_rc_input, getreg8, putreg8, px4_enter_critical_section,
      leave_critical_section, hne, setBits8_lt, clearBits8_lt]

/-- Reading C3 after `board_rc_input`. -/
theorem getreg8_c3_after (K : UartRegs) (invert_on : Bool) (base : Nat) (hw : Hw) :
    getreg8 ( board_rc_input K invert_on base hw) (regAddr K.KINETIS_UART_C3_OFFSET base) =
      if invert_on then setBits8 (getreg8 hw (regAddr K.KINETIS_UART_C3_OFFSET base))
        K.UART_C3_TXINV
      else clearBits8 (getreg8 hw (regAddr K.KINETIS_UART_C3_OFFSET base)) K.UART_C3_TXINV := by
  cases invert_on <;>
    simp [board_rc_input, getreg8, putreg8, px4_enter_critical_section,
      leave_critical_section, setBits8_lt, clearBits8_lt]

/-- Cells other than S2 and C3 keep their content. -/
theorem mem_other_after (K : UartRegs) (invert_on : Bool) (base : Nat) (hw : Hw) (a : Nat)
    (hs2 : a ≠ regAddr K.KINETIS_UART_S2_OFFSET base)
    (hc3 : a ≠ regAddr K.KINETIS_UART_C3_OFFSET base) :
    ( board_rc_input K invert_on base hw).mem a = hw.mem a := by
  simp [board_rc_input, putreg8, px4_enter_critical_section, leave_critical_section, hs2, hc3]

/-- The interrupt state is the same before and after `board_rc_input`. -/
theorem irqstate_after (K : UartRegs) (invert_on : Bool) (base : Nat) (hw : Hw) :
    ( board_rc_input K invert_on base hw).irqstate = hw.irqstate := by
  simp [board_rc_input, putreg8, px4_enter_critical_section, leave_critical_section]

/-- Each bit of S2 after `board_rc_input`: a bit of the RXINV mask takes the value of
the flag, any other bit keeps its value. -/
theorem testBit_s2_after (K : UartRegs) (invert_on : Bool) (base : Nat) (hw : Hw) (i : Nat)
    (hne : regAddr K.KINETIS_UART_S2_OFFSET base ≠ regAddr K.KINETIS_UART_C3_OFFSET base) :
    (getreg8 ( board_rc_input K invert_on base hw)
        (regAddr K.KINETIS_UART_S2_OFFSET base)).testBit i =
      if i < 8 ∧ K.UART_S2_RXINV.testBit i = true then invert_on
      else (getreg8 hw (regAddr K.KINETIS_UART_S2_OFFSET base)).testBit i := by
  rw [getreg8_s2_after K invert_on base hw hne]
  by_cases h8 : i < 8
  · cases invert_on <;> cases hm : K.UART_S2_RXINV.testBit i <;>
      simp [testBit_setBits8, testBit_clearBits8, h8, hm]
  · have hh := testBit_getreg8_high hw (regAddr K.KINETIS_UART_S2_OFFSET base) i h8
    cases invert_on <;> simp [testBit_setBits8, testBit_clearBits8, h8, hh]

/-- Each bit of C3 after `board_rc_input`: a bit of the TXINV mask takes the value of
the flag, any other bit keeps its value. -/
theorem testBit_c3_after (K : UartRegs) (invert_on : Bool) (base : Nat) (hw : Hw) (i : Nat) :
    (getreg8 ( board_rc_input K invert_on base hw)
        (regAddr K.KINETIS_UART_C3_OFFSET base)).testBit i =
      if i < 8 ∧ K.UART_C3_TXINV.testBit i = true then invert_on
      else (getreg8 hw (regAddr K.KINETIS_UART_C3_OFFSET base)).testBit i := by
  rw [getreg8_c3_after K invert_on base hw]
  by_cases h8 : i < 8
  · cases invert_on <;> cases hm : K.UART_C3_TXINV.testBit i <;>
      simp [testBit_setBits8, testBit_clearBits8, h8, hm]
  · have hh := testBit_getreg8_high hw (regAddr K.KINETIS_UART_C3_OFFSET base) i h8
    cases invert_on <;> simp [testBit_setBits8, testBit_clearBits8, h8, hh]

/-- On the K66 the S2 and C3 registers of a UART are distinct addresses. -/
theorem k66_s2_ne_c3 (base : Nat) :
    regAddr k66Uart.KINETIS_UART_S2_OFFSET base ≠ regAddr k66Uart.KINETIS_UART_C3_OFFSET base := by
  simp only [regAddr, k66Uart]
  omega

theorem setBits8_idem (x mask : Nat) : setBits8 (setBits8 x mask) mask = setBits8 x mask := by
  apply Nat.eq_of_testBit_eq
  intro i
  simp only [testBit_setBits8]
  cases decide (i < 8) <;> cases x.testBit i <;> cases mask.testBit i <;> rfl

theorem clearBits8_idem (x mask : Nat) :
    clearBits8 (clearBits8 x mask) mask = clearBits8 x mask := by
  apply Nat.eq_of_testBit_eq
  intro i
  simp only [testBit_clearBits8]
  cases decide (i < 8) <;> cases x.testBit i <;> cases mask.testBit i <;> rfl

/-- Two hardware states with the same memory and interrupt state are equal. -/
theorem Hw.ext_of (hw1 hw2 : Hw) (hm : ∀ a, hw1.mem a = hw2.mem a)
    (hi : hw1.irqstate = hw2.irqstate) : hw1 = hw2 := by
  cases hw1
  cases hw2
  simp only [Hw.mk.injEq]
  exact ⟨funext hm, hi⟩

/-- The byte stored in S2 after `board_rc_input` is the byte read back. -/
theorem mem_s2_after (K : UartRegs) (invert_on : Bool) (base : Nat) (hw : Hw)
    (hne : regAddr K.KINETIS_UART_S2_OFFSET base ≠ regAddr K.KINETIS_UART_C3_OFFSET base) :
    ( board_rc_input K invert_on base hw).mem (regAddr K.KINETIS_UART_S2_OFFSET base) =
      getreg8 ( board_rc_input K invert_on base hw) (regAddr K.KINETIS_UART_S2_OFFSET base) := by
  cases invert_on <;>
    simp [board_rc_input, getreg8, putreg8, px4_enter_critical_section,
      leave_critical_section, hne]

/-- The byte stored in C3 after `board_rc_input` is the byte read back. -/
theorem mem_c3_after (K : UartRegs) (invert_on : Bool) (base : Nat) (hw : Hw) :
    ( board_rc_input K invert_on base hw).mem (regAddr K.KINETIS_UART_C3_OFFSET base) =
      getreg8 ( board_rc_input K invert_on base hw) (regAddr K.KINETIS_UART_C3_OFFSET base) := by
  cases invert_on <;>
    simp [board_rc_input, getreg8, putreg8, px4_enter_critical_section,
      leave_critical_section]

/-- Calling `board_rc_input` a second time with the same flag changes nothing. -/
theorem board_rc_input_twice (K : UartRegs) (invert_on : Bool) (base : Nat) (hw : Hw)
    (hne : regAddr K.KINETIS_UART_S2_OFFSET base ≠ regAddr K.KINETIS_UART_C3_OFFSET base) :
    board_rc_input K invert_on base ( board_rc_input K invert_on base hw) =
      board_rc_input K invert_on base hw := by
  apply Hw.ext_of
  · intro a
    by_cases hc3 : a = regAddr K.KINETIS_UART_C3_OFFSET base
    · subst hc3
      rw [mem_c3_after, mem_c3_after, getreg8_c3_after, getreg8_c3_after]
      cases invert_on <;> simp [setBits8_idem, clearBits8_idem]
    · by_cases hs2 : a = regAddr K.KINETIS_UART_S2_OFFSET base
      · subst hs2
        rw [mem_s2_after _ _ _ _ hne, mem_s2_after _ _ _ _ hne, getreg8_s2_after _ _ _ _ hne,
          getreg8_s2_after _ _ _ _ hne]
        cases invert_on <;> simp [setBits8_idem, clearBits8_idem]
      · rw [mem_other_after _ _ _ _ _ hs2 hc3]
  · rw [irqstate_after]

/-- A table whose entries all configure output-low leaves each of its pins output-low. -/
theorem gpio_table_low (gpio : List GpioEntry) (pins : Nat → Bool) (p : Nat)
    (hlow : ∀ e ∈ gpio, e.output_low = true)
    (hp : pins p = true ∨ ∃ e ∈ gpio, e.pin = p) :
    gpio.foldl (fun st e => fun q => if q = e.pin then e.output_low else st q) pins p = true := by
  induction gpio generalizing pins with
  | nil =>
    rcases hp with hp | ⟨e, he, _⟩
    · simpa using hp
    · simp at he
  | cons x xs ih =>
    simp only [List.foldl_cons]
    apply ih
    · intro e he
      exact hlow e (List.mem_cons_of_mem _ he)
    · by_cases hx : p = x.pin
      · left
        simp [hx, hlow x (List.mem_cons_self _ _)]
      · rcases hp with hp | ⟨e, he, hep⟩
        · left
          simp [hx, hp]
        · rcases List.mem_cons.mp he with rfl | he2
          · exact absurd hep.symm hx
          · right
            exact ⟨e, he2, hep⟩

/-! ## Theorems about `board_app_initialize` -/

/-- C1: for every error code `c ≠ OK`, when the SD-card stage returns `c`,
`board_app_initialize` executes neither the SPI bus stage nor the automount
stage, calls the fault indicator `board_autoled_on(LED_RED)` exactly once (and
no other `board_autoled_on`), and returns exactly `c` through the `return` that
follows the SD-card stage. -/
theorem sdhc_failure_is_fatal (cfg : Config) (env : Env) (arg : Nat) (c : Int)
    (hc : c ≠ OK) (hsd : env.fmuk66_sdhc_initialize = c) :
    Action.fmuk66_spi_bus_initialize ∉ ( board_app_initialize cfg env arg).trace ∧
    Action.fmuk66_automount_initialize ∉ ( board_app_initialize cfg env arg).trace ∧
    ( board_app_initialize cfg env arg).trace.count (Action.board_autoled_on Led.LED_RED) = 1 ∧
    (∀ led, Action.board_autoled_on led ∈ ( board_app_initialize cfg env arg).trace →
      led = Led.LED_RED) ∧
    ( board_app_initialize cfg env arg).ret = c ∧
    ( board_app_initialize cfg env arg).exit = Exit.sd_fault := by
  obtain ⟨f1, f2, f3, f4⟩ := cfg
  obtain ⟨dma, sd, spi⟩ := env
  simp only at hsd
  subst hsd
  by_cases hd : dma < 0 <;> cases f1 <;> cases f2 <;>
    simp [ board_app_initialize, hd, hc, List.count_cons]

/-- Witness for C1: the SD-card stage fails with `-19` in the full build. -/
theorem sdhc_failure_is_fatal_witness :
    Action.fmuk66_spi_bus_initialize ∉ ( board_app_initialize cfgAll envSdFail 0).trace ∧
    Action.fmuk66_automount_initialize ∉ ( board_app_initialize cfgAll envSdFail 0).trace ∧
    ( board_app_initialize cfgAll envSdFail 0).trace.count
      (Action.board_autoled_on Led.LED_RED) = 1 ∧
    (∀ led, Action.board_autoled_on led ∈ ( board_app_initialize cfgAll envSdFail 0).trace →
      led = Led.LED_RED) ∧
    ( board_app_initialize cfgAll envSdFail 0).ret = -19 ∧
    ( board_app_initialize cfgAll envSdFail 0).exit = Exit.sd_fault :=
  sdhc_failure_is_fatal cfgAll envSdFail 0 (-19) (by decide) rfl

/-- C3: for every error code `c ≠ OK`, when the SD-card stage returns `OK` and the SPI
bus stage runs and returns `c`, `board_app_initialize` calls the fault indicator
`board_autoled_on(LED_RED)` exactly once (and no other `board_autoled_on`) and returns
`c` unchanged; the value returned is not `OK` if and only if the SD-card stage returned
a value other than `OK` or the SPI bus stage ran and returned a value other than `OK`,
and it is the value of the first of the two stages that failed. The SPI bus stage
runs exactly in a build with `CONFIG_SPI` after an SD-card stage that returned `OK`. -/
theorem spi_failure_is_fatal (cfg : Config) (env : Env) (arg : Nat) :
    (∀ c : Int, c ≠ OK → env.fmuk66_sdhc_initialize = OK →
      Action.fmuk66_spi_bus_initialize ∈ ( board_app_initialize cfg env arg).trace →
      env.fmuk66_spi_bus_initialize = c →
      ( board_app_initialize cfg env arg).trace.count
        (Action.board_autoled_on Led.LED_RED) = 1 ∧
      (∀ led, Action.board_autoled_on led ∈ ( board_app_initialize cfg env arg).trace →
        led = Led.LED_RED) ∧
      ( board_app_initialize cfg env arg).ret = c ∧
      ( board_app_initialize cfg env arg).exit = Exit.spi_fault) ∧
    (( board_app_initialize cfg env arg).ret ≠ OK ↔
      env.fmuk66_sdhc_initialize ≠ OK ∨
      (Action.fmuk66_spi_bus_initialize ∈ ( board_app_initialize cfg env arg).trace ∧
        env.fmuk66_spi_bus_initialize ≠ OK)) ∧
    ( board_app_initialize cfg env arg).ret =
      (if env.fmuk66_sdhc_initialize ≠ OK then env.fmuk66_sdhc_initialize
       else if Action.fmuk66_spi_bus_initialize ∈ ( board_app_initialize cfg env arg).trace ∧
          env.fmuk66_spi_bus_initialize ≠ OK then env.fmuk66_spi_bus_initialize
       else OK) ∧
    (Action.fmuk66_spi_bus_initialize ∈ ( board_app_initialize cfg env arg).trace ↔
      cfg.CONFIG_SPI = true ∧ env.fmuk66_sdhc_initialize = OK) := by
  have hrun := spi_stage_runs_iff cfg env arg
  refine ⟨?_, ?_, ?_, hrun⟩
  · intro c hc hsd hin hspi
    have hcfg : cfg.CONFIG_SPI = true := (hrun.mp hin).1
    subst hspi
    refine ⟨?_, ?_, ?_, ?_⟩
    · rw [trace_eq]
      cases hf1 : cfg.CONFIG_SCHED_INSTRUMENTATION <;> cases hf2 : cfg.SERIAL_HAVE_DMA <;>
        cases hf3 : cfg.HAVE_AUTOMOUNTER <;>
        by_cases hd : env.board_dma_alloc_init < 0 <;>
        simp [hsd, hc, hcfg, hd, List.count_cons]
    · intro led
      rw [trace_eq]
      cases hf1 : cfg.CONFIG_SCHED_INSTRUMENTATION <;> cases hf2 : cfg.SERIAL_HAVE_DMA <;>
        cases hf3 : cfg.HAVE_AUTOMOUNTER <;>
        by_cases hd : env.board_dma_alloc_init < 0 <;>
        simp [hsd, hc, hcfg, hd]
    · simp [ret_eq, hsd, hc, hcfg]
    · simp [exit_eq, hsd, hc, hcfg]
  · rw [ret_eq, hrun]
    by_cases hsd : env.fmuk66_sdhc_initialize = OK <;>
      by_cases hspi : env.fmuk66_spi_bus_initialize = OK <;>
      cases hf4 : cfg.CONFIG_SPI <;> simp [hsd, hspi]
  · rw [ret_eq]
    simp only [hrun]
    by_cases hsd : env.fmuk66_sdhc_initialize = OK <;>
      by_cases hspi : env.fmuk66_spi_bus_initialize = OK <;>
      cases hf4 : cfg.CONFIG_SPI <;> simp [hsd, hspi]

/-- Witness for C3: the SPI bus stage fails with `-5` in the full build. -/
theorem spi_failure_is_fatal_witness :
    (( board_app_initialize cfgAll envSpiFail 0).trace.count
        (Action.board_autoled_on Led.LED_RED) = 1 ∧
      (∀ led, Action.board_autoled_on led ∈ ( board_app_initialize cfgAll envSpiFail 0).trace →
        led = Led.LED_RED) ∧
      ( board_app_initialize cfgAll envSpiFail 0).ret = -5 ∧
      ( board_app_initialize cfgAll envSpiFail 0).exit = Exit.spi_fault) ∧
    ( board_app_initialize cfgAll envSpiFail 0).ret ≠ OK :=
  ⟨(spi_failure_is_fatal cfgAll envSpiFail 0).1 (-5) (by decide) rfl (by decide) rfl,
   (spi_failure_is_fatal cfgAll envSpiFail 0).2.1.mpr (Or.inr ⟨by decide, by decide⟩)⟩

/-- C4: a failing DMA allocator (`board_dma_alloc_init() < 0`) is not fatal. For
every build and every outcome of the other stages, the run with a failing
allocator makes the calls of the run with a succeeding allocator, in the same
order, with the one diagnostic `message("DMA alloc FAILED")` inserted right after
`board_dma_alloc_init`; both runs drive the indicator identically, take the same
`return` and return the same value; the value returned does not depend on the
allocator result at all. -/
theorem dma_alloc_failure_is_not_fatal (cfg : Config) (env : Env) (arg : Nat) (d1 d2 : Int)
    (h1 : d1 < 0) (h2 : 0 ≤ d2) :
    (∃ pre post : List Action,
      Action.board_dma_alloc_init ∉ pre ∧
      ( board_app_initialize cfg { env with board_dma_alloc_init := d2 } arg).trace =
        pre ++ Action.board_dma_alloc_init :: post ∧
      ( board_app_initialize cfg { env with board_dma_alloc_init := d1 } arg).trace =
        pre ++ Action.board_dma_alloc_init :: Action.message "DMA alloc FAILED" :: post) ∧
    ( board_app_initialize cfg { env with board_dma_alloc_init := d1 } arg).ret =
      ( board_app_initialize cfg { env with board_dma_alloc_init := d2 } arg).ret ∧
    ( board_app_initialize cfg { env with board_dma_alloc_init := d1 } arg).exit =
      ( board_app_initialize cfg { env with board_dma_alloc_init := d2 } arg).exit ∧
    ( board_app_initialize cfg { env with board_dma_alloc_init := d1 } arg).trace.filter
        isLedAction =
      ( board_app_initialize cfg { env with board_dma_alloc_init := d2 } arg).trace.filter
        isLedAction ∧
    (∀ started s0 : IndicatorState,
      indicatorAfter started s0
        ( board_app_initialize cfg { env with board_dma_alloc_init := d1 } arg).trace =
      indicatorAfter started s0
        ( board_app_initialize cfg { env with board_dma_alloc_init := d2 } arg).trace) ∧
    (∀ d : Int, ( board_app_initialize cfg { env with board_dma_alloc_init := d } arg).ret =
      ( board_app_initialize cfg env arg).ret) := by
  have h2 : ¬ d2 < 0 := not_lt.mpr h2
  refine ⟨⟨[Action.VDD_3V3_SD_CARD_EN true, Action.VDD_3V3_SENSORS_EN true,
      Action.fmuk66_spidev_initialize, Action.VDD_ETH_EN true, Action.up_cxxinitialize,
      Action.param_init, Action.hrt_init], _, by simp,
      by rw [trace_eq],
      by rw [trace_eq]; simp [h1, h2]⟩, ?_, ?_, ?_, ?_, ?_⟩
  · simp [ret_eq]
  · simp [exit_eq]
  · rw [trace_eq, trace_eq]
    simp [h1, h2, isLedAction]
  · intro started s0
    rw [trace_eq, trace_eq]
    simp [h1, h2, indicatorAfter, ledEffect]
  · intro d
    simp [ret_eq]

/-- Witness for C4: allocator results `-12` and `0` in the full build with the other
stages succeeding. -/
theorem dma_alloc_failure_is_not_fatal_witness :
    ( board_app_initialize cfgAll { envOk with board_dma_alloc_init := -12 } 0).ret =
      ( board_app_initialize cfgAll { envOk with board_dma_alloc_init := 0 } 0).ret ∧
    ( board_app_initialize cfgAll { envOk with board_dma_alloc_init := -12 } 0).exit =
      ( board_app_initialize cfgAll { envOk with board_dma_alloc_init := 0 } 0).exit :=
  ⟨(dma_alloc_failure_is_not_fatal cfgAll envOk 0 (-12) 0 (by decide) (by decide)).2.1,
   (dma_alloc_failure_is_not_fatal cfgAll envOk 0 (-12) 0 (by decide) (by decide)).2.2.1⟩

/-- Counterexample to C9 as stated: in a build without `CONFIG_SCHED_INSTRUMENTATION`
(every other switch defined, every stage succeeding) the run goes from the DMA
allocator stage straight to the serial poll registration, so the stages executed are
not an initial segment of the fixed order, with or without the automount stage; the
same holds in a build with no optional stage, which goes from the DMA allocator stage
to LED init and from SD init to Ready. -/
theorem bring_up_fixed_order_counterexample :
    stagesRun ( board_app_initialize cfgNoCpuLoad envOk 0) =
      [Stage.RailsEnabling, Stage.LanguageRuntimePrep, Stage.ParamStoreInit,
       Stage.TimebaseInit, Stage.DmaAllocInit, Stage.SerialPollRegister, Stage.LedInit,
       Stage.SdInit, Stage.AutomountInit, Stage.SpiInit, Stage.Ready] ∧
    ¬ (stagesRun ( board_app_initialize cfgNoCpuLoad envOk 0) <+: stageOrder) ∧
    ¬ (stagesRun ( board_app_initialize cfgNoCpuLoad envOk 0) <+:
        stageOrder.erase Stage.AutomountInit) ∧
    stagesRun ( board_app_initialize cfgNone envOk 0) =
      [Stage.RailsEnabling, Stage.LanguageRuntimePrep, Stage.ParamStoreInit,
       Stage.TimebaseInit, Stage.DmaAllocInit, Stage.LedInit, Stage.SdInit, Stage.Ready] ∧
    ¬ (stagesRun ( board_app_initialize cfgNone envOk 0) <+: stageOrder) ∧
    ¬ (stagesRun ( board_app_initialize cfgNone envOk 0) <+:
        stageOrder.erase Stage.AutomountInit) := by
  decide

/-- C9 (amended): on every run of `board_app_initialize`, in every build, the stages
executed form an initial segment of the fixed linear order restricted to the stages
compiled into the build (CPU-load instrumentation with `CONFIG_SCHED_INSTRUMENTATION`,
serial poll registration with `SERIAL_HAVE_DMA`, automount with `HAVE_AUTOMOUNTER`, SPI
bus init with `CONFIG_SPI`, every other stage always), so no stage is repeated and none
runs out of order. Rail enabling is exactly the first four calls, in this order:
SD-card rail on, sensor rail on, the SPI chip-select set-up `fmuk66_spidev_initialize`,
ethernet rail on; no later call switches a rail or repeats the chip-select set-up. No
call is made twice, and `hrt_call_every` is called at most once; `hrt_init` comes
before any `hrt_call_every`, and the SD-card rail is switched on before the SD
controller is probed. In a build with CPU-load instrumentation, serial DMA and SPI, the
order is the fixed order itself, with the automount stage present or absent. -/
theorem bring_up_follows_build_stage_order (cfg : Config) (env : Env) (arg : Nat) :
    stagesRun ( board_app_initialize cfg env arg) <+: stageOrder.filter cfg.hasStage ∧
    (stagesRun ( board_app_initialize cfg env arg)).Nodup ∧
    ( board_app_initialize cfg env arg).trace.take 4 =
      [Action.VDD_3V3_SD_CARD_EN true, Action.VDD_3V3_SENSORS_EN true,
       Action.fmuk66_spidev_initialize, Action.VDD_ETH_EN true] ∧
    (∀ a ∈ ( board_app_initialize cfg env arg).trace.drop 4,
      isRailSwitch a = false ∧ a ≠ Action.fmuk66_spidev_initialize) ∧
    ( board_app_initialize cfg env arg).trace.Nodup ∧
    ( board_app_initialize cfg env arg).trace.countP isPollRegistration ≤ 1 ∧
    Precedes isTimebaseInit isPollRegistration ( board_app_initialize cfg env arg).trace ∧
    Precedes isSdRailOn isSdProbe ( board_app_initialize cfg env arg).trace ∧
    (cfg.CONFIG_SCHED_INSTRUMENTATION = true → cfg.SERIAL_HAVE_DMA = true →
      cfg.CONFIG_SPI = true →
      stageOrder.filter cfg.hasStage =
        if cfg.HAVE_AUTOMOUNTER = true then stageOrder
        else stageOrder.erase Stage.AutomountInit) := by
  refine ⟨stagesRun_initial_segment cfg env arg, stagesRun_nodup cfg env arg,
    trace_take_four cfg env arg, trace_drop_four cfg env arg,
    trace_nodup cfg env arg, poll_registered_at_most_once cfg env arg,
    precedesB_sound _ _ _ (timebase_check cfg env arg),
    precedesB_sound _ _ _ (sd_rail_check cfg env arg), ?_⟩
  obtain ⟨f1, f2, f3, f4⟩ := cfg
  intro h1 h2 h4
  simp only at h1 h2 h4
  subst h1 h2 h4
  cases f3 <;> decide

/-- Witness for C9 (amended): in the full build with every stage succeeding the stages
executed are the whole fixed order; in the build without CPU-load instrumentation they
are an initial segment of the order of that build. -/
theorem bring_up_follows_build_stage_order_witness :
    stagesRun ( board_app_initialize cfgAll envOk 0) <+: stageOrder ∧
    stagesRun ( board_app_initialize cfgAll envOk 0) = stageOrder ∧
    stagesRun ( board_app_initialize cfgNoCpuLoad envOk 0) <+:
      stageOrder.filter cfgNoCpuLoad.hasStage := by
  have h := bring_up_follows_build_stage_order cfgAll envOk 0
  rw [h.2.2.2.2.2.2.2.2 rfl rfl rfl] at h
  exact ⟨h.1, by decide, (bring_up_follows_build_stage_order cfgNoCpuLoad envOk 0).1⟩

/-! ## Theorems about `board_rc_input` -/

/-- C10: for every flag, base address and register state (S2 and C3 being distinct
addresses), after `board_rc_input(invert_on, base)` every bit of the RXINV mask in S2
is set if and only if the flag is true, every bit of the TXINV mask in C3 is set if and
only if the flag is true, every other bit of the 8-bit values of S2 and C3 is
unchanged, every other register and the interrupt state are unchanged, and a second
call with the same flag yields the same state as the first. -/
theorem board_rc_input_sets_inversion (K : UartRegs) (invert_on : Bool) (base : Nat) (hw : Hw)
    (hne : regAddr K.KINETIS_UART_S2_OFFSET base ≠ regAddr K.KINETIS_UART_C3_OFFSET base) :
    (∀ i, i < 8 → K.UART_S2_RXINV.testBit i = true →
      ((getreg8 ( board_rc_input K invert_on base hw)
        (regAddr K.KINETIS_UART_S2_OFFSET base)).testBit i = true ↔ invert_on = true)) ∧
    (∀ i, i < 8 → K.UART_C3_TXINV.testBit i = true →
      ((getreg8 ( board_rc_input K invert_on base hw)
        (regAddr K.KINETIS_UART_C3_OFFSET base)).testBit i = true ↔ invert_on = true)) ∧
    (∀ i, K.UART_S2_RXINV.testBit i = false →
      (getreg8 ( board_rc_input K invert_on base hw)
        (regAddr K.KINETIS_UART_S2_OFFSET base)).testBit i =
      (getreg8 hw (regAddr K.KINETIS_UART_S2_OFFSET base)).testBit i) ∧
    (∀ i, K.UART_C3_TXINV.testBit i = false →
      (getreg8 ( board_rc_input K invert_on base hw)
        (regAddr K.KINETIS_UART_C3_OFFSET base)).testBit i =
      (getreg8 hw (regAddr K.KINETIS_UART_C3_OFFSET base)).testBit i) ∧
    (∀ a, a ≠ regAddr K.KINETIS_UART_S2_OFFSET base →
      a ≠ regAddr K.KINETIS_UART_C3_OFFSET base →
      ( board_rc_input K invert_on base hw).mem a = hw.mem a) ∧
    ( board_rc_input K invert_on base hw).irqstate = hw.irqstate ∧
    board_rc_input K invert_on base ( board_rc_input K invert_on base hw) =
      board_rc_input K invert_on base hw := by
  refine ⟨?_, ?_, ?_, ?_, ?_, irqstate_after K invert_on base hw,
    board_rc_input_twice K invert_on base hw hne⟩
  · intro i hi hm
    rw [testBit_s2_after K invert_on base hw i hne]
    simp [hi, hm]
  · intro i hi hm
    rw [testBit_c3_after K invert_on base hw i]
    simp [hi, hm]
  · intro i hm
    rw [testBit_s2_after K invert_on base hw i hne]
    simp [hm]
  · intro i hm
    rw [testBit_c3_after K invert_on base hw i]
    simp [hm]
  · intro a hs2 hc3
    exact mem_other_after K invert_on base hw a hs2 hc3

/-- Witness for C10: inversion switched on for UART0 of the K66 with all registers
zero; bit 4 of S2 and of C3 ends up set. -/
theorem board_rc_input_sets_inversion_witness :
    (getreg8 ( board_rc_input k66Uart true 0x4006A000 hwZero)
      (regAddr k66Uart.KINETIS_UART_S2_OFFSET 0x4006A000)).testBit 4 = true ∧
    (getreg8 ( board_rc_input k66Uart true 0x4006A000 hwZero)
      (regAddr k66Uart.KINETIS_UART_C3_OFFSET 0x4006A000)).testBit 4 = true :=
  ⟨((board_rc_input_sets_inversion k66Uart true 0x4006A000 hwZero
      (k66_s2_ne_c3 0x4006A000)).1 4 (by decide) (by decide)).mpr rfl,
   ((board_rc_input_sets_inversion k66Uart true 0x4006A000 hwZero
      (k66_s2_ne_c3 0x4006A000)).2.1 4 (by decide) (by decide)).mpr rfl⟩

/-- Counterexample to C5 as stated: on UART0 of the K66 with RXINV set in S2 before the
calls (S2 holds `0x11`), switching inversion on and then off leaves S2 at `0x01`; the
RXINV bit is not back in its pre-call state. -/
theorem board_rc_input_round_trip_counterexample :
    getreg8 hwInverted (regAddr k66Uart.KINETIS_UART_S2_OFFSET 0x4006A000) = 0x11 ∧
    (getreg8 hwInverted (regAddr k66Uart.KINETIS_UART_S2_OFFSET 0x4006A000)).testBit 4 = true ∧
    getreg8 ( board_rc_input k66Uart false 0x4006A000
        ( board_rc_input k66Uart true 0x4006A000 hwInverted))
      (regAddr k66Uart.KINETIS_UART_S2_OFFSET 0x4006A000) = 0x01 ∧
    (getreg8 ( board_rc_input k66Uart false 0x4006A000
        ( board_rc_input k66Uart true 0x4006A000 hwInverted))
      (regAddr k66Uart.KINETIS_UART_S2_OFFSET 0x4006A000)).testBit 4 = false := by
  decide

/-- C5 (amended): for every UART base address and every initial content of S2 and C3
(distinct addresses), `board_rc_input(true, base)` followed by
`board_rc_input(false, base)` leaves every bit of the RXINV mask in S2 and of the
TXINV mask in C3 cleared and every other bit of both registers, and every other
register, untouched; S2, respectively C3, is restored to its pre-call value whenever
its inversion bits were clear before the calls. -/
theorem board_rc_input_on_then_off (K : UartRegs) (base : Nat) (hw : Hw)
    (hne : regAddr K.KINETIS_UART_S2_OFFSET base ≠ regAddr K.KINETIS_UART_C3_OFFSET base) :
    (∀ i, i < 8 → K.UART_S2_RXINV.testBit i = true →
      (getreg8 ( board_rc_input K false base ( board_rc_input K true base hw))
        (regAddr K.KINETIS_UART_S2_OFFSET base)).testBit i = false) ∧
    (∀ i, i < 8 → K.UART_C3_TXINV.testBit i = true →
      (getreg8 ( board_rc_input K false base ( board_rc_input K true base hw))
        (regAddr K.KINETIS_UART_C3_OFFSET base)).testBit i = false) ∧
    (∀ i, K.UART_S2_RXINV.testBit i = false →
      (getreg8 ( board_rc_input K false base ( board_rc_input K true base hw))
        (regAddr K.KINETIS_UART_S2_OFFSET base)).testBit i =
      (getreg8 hw (regAddr K.KINETIS_UART_S2_OFFSET base)).testBit i) ∧
    (∀ i, K.UART_C3_TXINV.testBit i = false →
      (getreg8 ( board_rc_input K false base ( board_rc_input K true base hw))
        (regAddr K.KINETIS_UART_C3_OFFSET base)).testBit i =
      (getreg8 hw (regAddr K.KINETIS_UART_C3_OFFSET base)).testBit i) ∧
    (∀ a, a ≠ regAddr K.KINETIS_UART_S2_OFFSET base →
      a ≠ regAddr K.KINETIS_UART_C3_OFFSET base →
      ( board_rc_input K false base ( board_rc_input K true base hw)).mem a = hw.mem a) ∧
    ((∀ i, i < 8 → K.UART_S2_RXINV.testBit i = true →
        (getreg8 hw (regAddr K.KINETIS_UART_S2_OFFSET base)).testBit i = false) →
      getreg8 ( board_rc_input K false base ( board_rc_input K true base hw))
        (regAddr K.KINETIS_UART_S2_OFFSET base) =
      getreg8 hw (regAddr K.KINETIS_UART_S2_OFFSET base)) ∧
    ((∀ i, i < 8 → K.UART_C3_TXINV.testBit i = true →
        (getreg8 hw (regAddr K.KINETIS_UART_C3_OFFSET base)).testBit i = false) →
      getreg8 ( board_rc_input K false base ( board_rc_input K true base hw))
        (regAddr K.KINETIS_UART_C3_OFFSET base) =
      getreg8 hw (regAddr K.KINETIS_UART_C3_OFFSET base)) := by
  refine ⟨?_, ?_, ?_, ?_, ?_, ?_, ?_⟩
  · intro i hi hm
    rw [testBit_s2_after K false base _ i hne]
    simp [hi, hm]
  · intro i hi hm
    rw [testBit_c3_after K false base _ i]
    simp [hi, hm]
  · intro i hm
    rw [testBit_s2_after K false base _ i hne, testBit_s2_after K true base hw i hne]
    simp [hm]
  · intro i hm
    rw [testBit_c3_after K false base _ i, testBit_c3_after K true base hw i]
    simp [hm]
  · intro a hs2 hc3
    rw [mem_other_after K false base _ a hs2 hc3, mem_other_after K true base hw a hs2 hc3]
  · intro hclear
    apply Nat.eq_of_testBit_eq
    intro i
    rw [testBit_s2_after K false base _ i hne, testBit_s2_after K true base hw i hne]
    by_cases hb : i < 8 ∧ K.UART_S2_RXINV.testBit i = true
    · simp [hb, hclear i hb.1 hb.2]
    · simp [hb]
  · intro hclear
    apply Nat.eq_of_testBit_eq
    intro i
    rw [testBit_c3_after K false base _ i, testBit_c3_after K true base hw i]
    by_cases hb : i < 8 ∧ K.UART_C3_TXINV.testBit i = true
    · simp [hb, hclear i hb.1 hb.2]
    · simp [hb]

/-- Witness for C5 (amended): UART0 of the K66 with RXINV set before the calls; the
RXINV bit is clear afterwards and bit 0 of S2 keeps its value. -/
theorem board_rc_input_on_then_off_witness :
    (getreg8 ( board_rc_input k66Uart false 0x4006A000
        ( board_rc_input k66Uart true 0x4006A000 hwInverted))
      (regAddr k66Uart.KINETIS_UART_S2_OFFSET 0x4006A000)).testBit 4 = false ∧
    (getreg8 ( board_rc_input k66Uart false 0x4006A000
        ( board_rc_input k66Uart true 0x4006A000 hwInverted))
      (regAddr k66Uart.KINETIS_UART_S2_OFFSET 0x4006A000)).testBit 0 =
    (getreg8 hwInverted (regAddr k66Uart.KINETIS_UART_S2_OFFSET 0x4006A000)).testBit 0 :=
  ⟨(board_rc_input_on_then_off k66Uart 0x4006A000 hwInverted
      (k66_s2_ne_c3 0x4006A000)).1 4 (by decide) (by decide),
   (board_rc_input_on_then_off k66Uart 0x4006A000 hwInverted
      (k66_s2_ne_c3 0x4006A000)).2.2.1 0 (by decide)⟩

/-! ## Theorems about the remaining entry points -/

/-- C6: for every reset status, `board_on_reset(status)` first hands the PWM pin table
to `board_gpio_init`, exactly once, so that every pin of a table of output-low
entries is output-low afterwards, whatever the status; it busy-waits (the 6 ms of
`up_mdelay(6)`) if and only if `status >= 0`, and for `status < 0` it makes no delay
call at all. -/
theorem board_on_reset_low_then_delay (gpio : List GpioEntry) (status : Int)
    (pins : Nat → Bool) (hlow : ∀ e ∈ gpio, e.output_low = true) :
    (board_on_reset gpio status).head? = some (Action.board_gpio_init gpio) ∧
    (board_on_reset gpio status).count (Action.board_gpio_init gpio) = 1 ∧
    (∀ e ∈ gpio, pinsAfter pins (board_on_reset gpio status) e.pin = true) ∧
    (Action.up_mdelay 6 ∈ board_on_reset gpio status ↔ 0 ≤ status) ∧
    (status < 0 → ∀ ms, Action.up_mdelay ms ∉ board_on_reset gpio status) ∧
    delayOf (board_on_reset gpio status) = (if 0 ≤ status then 6 else 0) := by
  by_cases hs : 0 ≤ status
  · refine ⟨?_, ?_, ?_, ?_, ?_, ?_⟩
    · simp [board_on_reset, hs]
    · simp [board_on_reset, hs, List.count_cons]
    · intro e he
      simp only [board_on_reset, ge_iff_le, hs, if_true, pinsAfter, List.cons_append,
        List.nil_append, List.foldl_cons, List.foldl_nil, gpioEffect]
      exact gpio_table_low gpio pins e.pin hlow (Or.inr ⟨e, he, rfl⟩)
    · simp [board_on_reset, hs]
    · intro hneg
      omega
    · simp [board_on_reset, hs, delayOf]
  · refine ⟨?_, ?_, ?_, ?_, ?_, ?_⟩
    · simp [board_on_reset, hs]
    · simp [board_on_reset, hs, List.count_cons]
    · intro e he
      simp only [board_on_reset, ge_iff_le, hs, if_false, pinsAfter, List.foldl_cons,
        List.foldl_nil, gpioEffect]
      exact gpio_table_low gpio pins e.pin hlow (Or.inr ⟨e, he, rfl⟩)
    · simp [board_on_reset, hs]
    · intro _ ms
      simp [board_on_reset, hs]
    · simp [board_on_reset, hs, delayOf]

/-- Witness for C6: a two-pin table and the status `-1` that `kinetis_boardinitialize`
passes. -/
theorem board_on_reset_low_then_delay_witness :
    (∀ e ∈ [GpioEntry.mk 3 true, GpioEntry.mk 7 true],
      pinsAfter (fun _ => false)
        (board_on_reset [GpioEntry.mk 3 true, GpioEntry.mk 7 true] (-1)) e.pin = true) ∧
    delayOf (board_on_reset [GpioEntry.mk 3 true, GpioEntry.mk 7 true] (-1)) = 0 :=
  ⟨(board_on_reset_low_then_delay [GpioEntry.mk 3 true, GpioEntry.mk 7 true] (-1)
      (fun _ => false) (by decide)).2.2.1,
   (board_on_reset_low_then_delay [GpioEntry.mk 3 true, GpioEntry.mk 7 true] (-1)
      (fun _ => false) (by decide)).2.2.2.2.2⟩

/-- C7: `board_read_VBUS_state` returns `0` if and only if the USB presence signal
`BOARD_ADC_USB_CONNECTED` is asserted (non-zero), returns `1` if and only if it is not,
and never returns anything but `0` or `1`. -/
theorem board_read_VBUS_state_inverts (usb_connected : Int) :
    (board_read_VBUS_state usb_connected = 0 ↔ usb_connected ≠ 0) ∧
    (board_read_VBUS_state usb_connected = 1 ↔ usb_connected = 0) ∧
    (board_read_VBUS_state usb_connected = 0 ∨ board_read_VBUS_state usb_connected = 1) := by
  by_cases h : usb_connected = 0 <;> simp [board_read_VBUS_state, h]

/-- C8 (the code at the failing input `ms = 10`): `board_peripheral_reset(10)` sleeps
10000 microseconds and logs, nothing else; for no duration does the function make a
call that switches a power rail, neither before nor after the wait. -/
theorem board_peripheral_reset_switches_no_rail :
    board_peripheral_reset 10 =
      [Action.usleep 10000, Action.warnx "reset done, %d ms" 10] ∧
    (∀ ms : Int, ∀ a ∈ board_peripheral_reset ms, isRailSwitch a = false) := by
  refine ⟨by decide, ?_⟩
  intro ms a ha
  simp only [board_peripheral_reset, List.mem_cons, List.mem_singleton, List.mem_nil_iff,
    or_false] at ha
  rcases ha with rfl | rfl <;> rfl

end Fmuk66
